import Mathlib

/-!
# AstrA naive-Bayes text classifier: a shallow embedding

Definitions translated from the Go sources `classifier.go`, `tokenizer.go`
and `tokenizerutil.go` of the AstrA repository.  Floating-point values are
modelled as rationals; Go maps are modelled as functions with default value
`0` (for `MapTokenToCategory`) and as an association list (for
`CategoriesCount`, whose key set and length the code observes).
-/

namespace AstrA

/-- Models `isSpace` from Go `bufio` (the rune predicate used by
`bufio.ScanWords`). -/
def goIsSpace (c : Char) : Bool :=
  if c.toNat ≤ 0xFF then
    c = ' ' || c = '\t' || c = '\n' || c.toNat = 0x0B || c.toNat = 0x0C ||
    c = '\r' || c.toNat = 0x85 || c.toNat = 0xA0
  else
    (0x2000 ≤ c.toNat && c.toNat ≤ 0x200A) ||
    c.toNat = 0x1680 || c.toNat = 0x2028 || c.toNat = 0x2029 ||
    c.toNat = 0x202F || c.toNat = 0x205F || c.toNat = 0x3000

/-- Models Go `strings.ToLower` on one character, restricted to the character
ranges this repository handles (ASCII and Cyrillic; identity elsewhere). -/
def goToLowerChar (c : Char) : Char :=
  if 0x41 ≤ c.toNat ∧ c.toNat ≤ 0x5A then Char.ofNat (c.toNat + 0x20)
  else if 0x410 ≤ c.toNat ∧ c.toNat ≤ 0x42F then Char.ofNat (c.toNat + 0x20)
  else if c.toNat = 0x401 then Char.ofNat 0x451
  else c

/-- Models Go `strings.ToLower` (see `goToLowerChar`). -/
def goToLower (s : String) : String := ⟨s.data.map goToLowerChar⟩

/-- Lexicographic order on codepoint sequences.  Go compares strings by
bytes; on valid UTF-8, byte order and codepoint order agree. -/
def goCharsLe : List Char → List Char → Bool
  | [], _ => true
  | _ :: _, [] => false
  | a :: as, b :: bs =>
    if a.toNat < b.toNat then true
    else if b.toNat < a.toNat then false
    else goCharsLe as bs

/-- Go string comparison `a <= b` (byte order). -/
def goStrLe (a b : String) : Bool := goCharsLe a.data b.data

/-- The loop of Go `sort.Search`, with explicit fuel (the loop halves the
interval `[i, j)`, so `j - i` steps always suffice; callers pass more). -/
def sortSearchGo (f : Nat → Bool) : Nat → Nat → Nat → Nat
  | 0, i, _ => i
  | fuel + 1, i, j =>
    if i < j then
      let h := (i + j) / 2
      if f h then sortSearchGo f fuel i h else sortSearchGo f fuel (h + 1) j
    else i

/-- Go `sort.Search n f`: binary search on `[0, n)` for the least index
satisfying `f` (assuming `f` monotone), returning `n` when none does. -/
def sortSearch (n : Nat) (f : Nat → Bool) : Nat := sortSearchGo f (n + 1) 0 n

/-- The `stopwords` slice from `classifier.go`, in source order. -/
def stopwords : List String := [
  "мне", "здравств", "c", "а", "алло", "без", "белый", "близко", "более", "больше",
  "большой", "будем", "будет", "будете", "будешь", "будто", "буду", "будут", "будь", "восьмой",
  "вот", "впрочем", "времени", "время", "все", "все еще", "всегда", "всего", "всем", "всеми",
  "всему", "всех", "всею", "всю", "всюду", "бы", "бывает", "бывь", "был", "была",
  "были", "было", "быть", "в", "важная", "важное", "важные", "важный", "вам", "вами",
  "вас", "ваш", "ваша", "ваше", "ваши", "вверх", "вдали", "вдруг", "ведь", "везде",
  "вернуться", "весь", "вечер", "взгляд", "взять", "вид", "видел", "видеть", "вместе", "вне",
  "вниз", "внизу", "во", "вода", "война", "вокруг", "вон", "вообще", "вопрос", "восемнадцатый",
  "восемнадцать", "восемь", "вся", "всё", "второй", "вы", "выйти", "г", "где", "главный",
  "глаз", "говорил", "говорит", "говорить", "год", "года", "году", "голова", "голос", "город",
  "да", "давать", "давно", "даже", "далекий", "далеко", "три", "тринадцатый", "тринадцать", "ту",
  "туда", "тут", "ты", "тысяч", "у", "увидеть", "уж", "уже", "улица", "уметь",
  "утро", "хороший", "хорошо", "хотел бы", "хотеть", "хоть", "хотя", "хочешь", "час", "часто",
  "часть", "чаще", "чего", "человек", "чем", "чему", "через", "четвертый", "четыре", "четырнадцатый",
  "четырнадцать", "что", "чтоб", "чтобы", "чуть", "шестнадцатый", "шестнадцать", "шестой", "шесть", "эта",
  "эти", "этим", "этими", "этих", "это", "этого", "этой", "этом", "этому", "этот",
  "эту", "я", "являюсь", "дальше", "даром", "дать", "два", "двадцатый", "двадцать", "две",
  "двенадцатый", "двенадцать", "дверь", "двух", "девятнадцатый", "девятнадцать", "девятый", "девять", "действительно", "дел",
  "делал", "делать", "делаю", "дело", "день", "деньги", "десятый", "десять", "для", "до",
  "довольно", "долго", "должен", "должно", "должный", "дом", "дорога", "друг", "другая", "другие",
  "других", "друго", "другое", "другой", "думать", "душа", "е", "его", "ее", "ей",
  "ему", "если", "есть", "еще", "ещё", "ею", "её", "ж", "ждать", "же",
  "жена", "женщина", "жизнь", "жить", "за", "занят", "занята", "занято", "заняты", "затем",
  "зато", "зачем", "здесь", "земля", "знать", "значит", "значить", "и", "иди", "идти",
  "из", "или", "им", "имеет", "имел", "именно", "иметь", "ими", "имя", "иногда",
  "их", "к", "каждая", "каждое", "каждые", "каждый", "кажется", "казаться", "как", "какая",
  "какой", "кем", "книга", "когда", "кого", "ком", "комната", "кому", "конец", "конечно",
  "которая", "которого", "которой", "которые", "который", "которых", "кроме", "кругом", "кто", "куда",
  "лежать", "лет", "ли", "лицо", "лишь", "лучше", "любить", "советский", "совсем", "спасибо",
  "спросить", "сразу", "стал", "старый", "стать", "стол", "сторона", "стоять", "страна", "суть",
  "считать", "т", "та", "так", "такая", "также", "таки", "такие", "такое", "такой",
  "там", "твои", "твой", "твоя", "твоё", "те", "тебе", "тебя", "тем", "теми",
  "теперь", "тех", "люди", "м", "маленький", "мало", "мать", "машина", "между", "меля",
  "менее", "меньше", "меня", "место", "миллионов", "мимо", "минута", "мир", "мира", "мне",
  "много", "многочисленная", "многочисленное", "многочисленные", "многочисленный", "мной", "мною", "мог", "могу", "могут",
  "мож", "может", "может быть", "можно", "можхо", "мои", "мой", "мор", "москва", "мочь",
  "моя", "моё", "мы", "на", "наверху", "над", "надо", "назад", "наиболее", "найти",
  "наконец", "нам", "нами", "народ", "нас", "начала", "начать", "наш", "наша", "наше",
  "наши", "не", "него", "недавно", "недалеко", "нее", "ней", "некоторый", "нельзя", "нем",
  "немного", "нему", "непрерывно", "нередко", "несколько", "нет", "нею", "неё", "ни", "нибудь",
  "ниже", "низко", "никакой", "никогда", "никто", "никуда", "ним", "ними", "них", "ничего",
  "ничто", "но", "новый", "нога", "ночь", "ну", "нужно", "нужный", "нх", "о",
  "об", "оба", "обычно", "один", "одиннадцатый", "одиннадцать", "однажды", "однако", "одного", "одной",
  "оказаться", "окно", "около", "он", "она", "они", "оно", "опять", "особенно", "остаться",
  "от", "ответить", "отец", "откуда", "отовсюду", "отсюда", "очень", "первый", "перед", "писать",
  "плечо", "по", "под", "подойди", "подумать", "пожалуйста", "позже", "пойти", "пока", "пол",
  "то", "тобой", "тобою", "товарищ", "тогда", "того", "тоже", "только", "том", "тому",
  "тот", "тою", "третий", "слишком", "слово", "случай", "смотреть", "сначала", "снова", "со",
  "собой", "собою", "получить", "помнить", "понимать", "понять", "пор", "пора", "после", "последний",
  "посмотреть", "посреди", "потом", "потому", "почему", "почти", "правда", "прекрасно", "при", "про",
  "просто", "против", "процентов", "путь", "пятнадцатый", "пятнадцать", "пятый", "пять", "работа", "работать",
  "раз", "разве", "рано", "раньше", "ребенок", "решить", "россия", "рука", "русский", "ряд",
  "рядом", "с", "с кем", "сам", "сама", "сами", "самим", "самими", "самих", "само",
  "самого", "самой", "самом", "самому", "саму", "самый", "свет", "свое", "своего", "своей",
  "свои", "своих", "свой", "свою", "сделать", "сеаой", "себе", "себя", "сегодня", "седьмой",
  "сейчас", "семнадцатый", "семнадцать", "семь", "сидеть", "сила", "сих", "сказал", "сказала", "сказать",
  "сколько"
]

/-- `numStopwords = len(stopwords)` from `classifier.go`. -/
def numStopwords : Nat := stopwords.length

/-- `IsStopWord` from `classifier.go`: lowercases `v`, then
`sort.SearchStrings(stopwords, v)` (i.e. `sort.Search` with predicate
`stopwords[i] >= v`), then `index >= numStopwords || stopwords[index] == v`
(the second disjunct is only reached with `index < numStopwords`, so the
lookup is modelled with a default that is never compared). -/
def IsStopWord (v : String) : Bool :=
  let w := goToLower v
  let index := sortSearch numStopwords fun i => goStrLe w (stopwords.getD i "")
  decide (numStopwords ≤ index) || (stopwords.getD index "" == w)

/-- `IsNotStopWord` from `classifier.go`. -/
def IsNotStopWord (v : String) : Bool := !IsStopWord v

end AstrA

namespace AstrA

/-- The word loop of `bufio.ScanWords`: skip spaces, emit maximal runs of
non-space characters.  `acc` holds the current word, reversed. -/
def splitWordsAux : List Char → List Char → List String
  | [], acc => if acc.isEmpty then [] else [⟨acc.reverse⟩]
  | c :: cs, acc =>
    if goIsSpace c then
      if acc.isEmpty then splitWordsAux cs []
      else (⟨acc.reverse⟩ : String) :: splitWordsAux cs []
    else splitWordsAux cs (c :: acc)

/-- The raw token stream of `(*StdTokenizer).Tokenize`: the input scanned
with `bufio.ScanWords`. -/
def splitWords (s : String) : List String := splitWordsAux s.data []

/-- The default `StdTokenizer` pipeline from `tokenizer.go`:
`Map(Filter(in, IsNotStopWord), strings.ToLower)` — the stopword filter runs
first, then every surviving token is lowercased.  Channels preserve order,
so the pipeline is the corresponding list transformation. -/
def Tokenize (data : String) : List String :=
  ((splitWords data).filter IsNotStopWord).map goToLower

/-- `WordCounts` from `classifier.go`: counts each token of the default
pipeline of `NewTokenizer().Tokenize(data)`; the Go map with default 0 is a
function, the returned error is always `nil` (`none`). -/
def WordCounts (data : String) : (String → Nat) × Option String :=
  ((Tokenize data).foldl
      (fun wc token => Function.update wc token (wc token + 1)) fun _ => 0,
    none)

/-- `ErrNotClassified` from `tokenizerutil.go`. -/
def ErrNotClassified : String := "[AstrA] Не удалось определить класс текста"

/-- `ErrEmptyText` from `tokenizerutil.go`. -/
def ErrEmptyText : String := "[AstrA] Передан пустой текст"

/-- The `Classifier` struct.  `MapTokenToCategory` is a Go map of maps read
with default `0`; `CategoriesCount` is a Go map whose key set, values and
length the code observes, modelled as an association list with unique keys
(map iteration order is unspecified in Go; insertion order is the fixed
admissible order used here). -/
structure Classifier where
  mapTokenToCategory : String → String → Nat
  categoriesCount : List (String × Nat)

/-- `New()`: fresh classifier with empty maps. -/
def New : Classifier := ⟨fun _ _ => 0, []⟩

/-- `addToken`: increments `MapTokenToCategory[t][cat]` (creating missing
entries, which hold `0`). -/
def Classifier.addToken (c : Classifier) (t cat : String) : Classifier :=
  { c with
    mapTokenToCategory := fun t' cat' =>
      if t' = t ∧ cat' = cat then c.mapTokenToCategory t cat + 1
      else c.mapTokenToCategory t' cat' }

/-- Increment-or-insert on the association list modelling
`CategoriesCount[cat]++` (a missing Go map key reads as `0`, so the first
increment inserts `1`; a new key is appended). -/
def bumpCount : List (String × Nat) → String → List (String × Nat)
  | [], cat => [(cat, 1)]
  | (k, v) :: rest, cat =>
    if k = cat then (k, v + 1) :: rest else (k, v) :: bumpCount rest cat

/-- `v, ok := CategoriesCount[cat]` as an `Option`. -/
def lookupCount : List (String × Nat) → String → Option Nat
  | [], _ => none
  | (k, v) :: rest, cat => if k = cat then some v else lookupCount rest cat

/-- `addCategory` from `tokenizerutil.go`. -/
def Classifier.addCategory (c : Classifier) (cat : String) : Classifier :=
  { c with categoriesCount := bumpCount c.categoriesCount cat }

/-- `Train`: tokenizes `trainData` with the classifier's tokenizer, adds
every token to `category`, then bumps the category counter; always returns
a `nil` error. -/
def Classifier.Train (c : Classifier) (trainData category : String) :
    Classifier × Option String :=
  (((Tokenize trainData).foldl (fun c t => c.addToken t category)
      c).addCategory category,
    none)

/-- `getModelCategories`: the key list of `CategoriesCount`. -/
def Classifier.getModelCategories (c : Classifier) : List String :=
  c.categoriesCount.map Prod.fst

/-- `countTokenInCategory`: `float64(MapTokenToCategory[token][category])`
when the token row exists, else `0.0`; a missing row also reads `0`. -/
def Classifier.countTokenInCategory (c : Classifier) (token category : String) : ℚ :=
  (c.mapTokenToCategory token category : ℚ)

/-- `calcTokenWeight`: the token's count summed over the model categories,
floored to `0.001` when the sum is not positive. -/
def Classifier.calcTokenWeight (c : Classifier) (token : String) : ℚ :=
  let weight : ℚ :=
    (c.getModelCategories.map fun cat => (c.mapTokenToCategory token cat : ℚ)).sum
  if 0 < weight then weight else 1 / 1000

/-- `categoryTokensCount`: `float64(CategoriesCount[cat])` when present,
else `0.0`. -/
def Classifier.categoryTokensCount (c : Classifier) (cat : String) : ℚ :=
  match lookupCount c.categoriesCount cat with
  | some v => (v : ℚ)
  | none => 0

/-- `getTokenProb`: `countTokenInCategory / categoryTokensCount`, guarded to
`0.0` when the category count is `0`. -/
def Classifier.getTokenProb (c : Classifier) (token category : String) : ℚ :=
  if c.categoryTokensCount category = 0 then 0
  else c.countTokenInCategory token category / c.categoryTokensCount category

/-- `getWeightedProb`:
`((calcTokenWeight(token) * 1 / float64(len(CategoriesCount))) + sum * prob)
/ (1.0 + sum)` where `sum` totals the token's count over the model
categories and `prob = getTokenProb(token, cat)`. -/
def Classifier.getWeightedProb (c : Classifier) (token cat : String) : ℚ :=
  let sum : ℚ :=
    (c.getModelCategories.map fun category =>
      c.countTokenInCategory token category).sum
  let prob := c.getTokenProb token cat
  (c.calcTokenWeight token * 1 / (c.categoriesCount.length : ℚ) + sum * prob) /
    (1 + sum)

/-- `getTextProb`: product of `getWeightedProb` over the tokens of `data`,
starting from `1.0`. -/
def Classifier.getTextProb (c : Classifier) (data cat : String) : ℚ :=
  ((Tokenize data).map fun t => c.getWeightedProb t cat).foldl (· * ·) 1

/-- `getProb`: `docProb * categoryProb` with
`categoryProb := float64(1 / len(c.CategoriesCount))` — the division is Go
integer division (`Nat` division here), converted to float afterwards. -/
def Classifier.getProb (c : Classifier) (data category : String) : ℚ :=
  let categoryProb : ℚ := ((1 / c.categoriesCount.length : Nat) : ℚ)
  let docProb := c.getTextProb data category
  docProb * categoryProb

/-- One iteration of the category loop of `Classify`: the accumulator is
the running pair `(guessedClass, maxCoincidenceIndex)`, updated whenever a
category's probability strictly exceeds the running maximum. -/
def Classifier.classifyStep (c : Classifier) (data : String)
    (acc : String × ℚ) (cat : String) : String × ℚ :=
  let catCI := c.getProb data cat
  if acc.2 < catCI then (cat, catCI) else acc

/-- The category loop of `Classify`, starting from `("", 0.0)`. -/
def Classifier.classifyFold (c : Classifier) (data : String) : String × ℚ :=
  c.getModelCategories.foldl (c.classifyStep data) ("", 0)

/-- `Classify`: empty input fails with `ErrEmptyText`; otherwise the best
category is returned unless the loop never assigned one (`guessedClass`
still `""`), which fails with `ErrNotClassified`. -/
def Classifier.Classify (c : Classifier) (data : String) :
    Except String (String × ℚ) :=
  if data = "" then .error ErrEmptyText
  else
    let r := c.classifyFold data
    if r.1 = "" then .error ErrNotClassified else .ok r

end AstrA

namespace AstrA

/-- The spec's `totalSeen`: the sum of `CountInCategory(token, c')` over all
known categories `c'`. -/
def specTotalSeen (c : Classifier) (token : String) : ℚ :=
  (c.getModelCategories.map fun cat => c.countTokenInCategory token cat).sum

/-- The spec's `TotalWeight`: `totalSeen`, floored to `0.001` when the true
sum is `0`. -/
def specTotalWeight (c : Classifier) (token : String) : ℚ :=
  if specTotalSeen c token = 0 then 1 / 1000 else specTotalSeen c token

/-- The spec's weighted-probability formula:
`(TotalWeight(t) · 1 · (1/numberOfKnownCategories) + totalSeen · tokenProb(t,c))
/ (1 + totalSeen)`, with a real-number `1/numberOfKnownCategories`. -/
def specWeightedProb (c : Classifier) (token cat : String) : ℚ :=
  (specTotalWeight c token * 1 * (1 / (c.categoriesCount.length : ℚ)) +
      specTotalSeen c token * c.getTokenProb token cat) /
    (1 + specTotalSeen c token)

/-- `addToken` touches only `MapTokenToCategory`. -/
lemma foldl_addToken_categoriesCount (ts : List String) (category : String) :
    ∀ c : Classifier,
      (ts.foldl (fun c t => c.addToken t category) c).categoriesCount =
        c.categoriesCount := by
  induction ts with
  | nil => intro c; rfl
  | cons t ts ih => intro c; rw [List.foldl_cons, ih]; rfl

/-- `Train` changes `CategoriesCount` exactly by one `addCategory` bump. -/
lemma Train_categoriesCount (c : Classifier) (d k : String) :
    (c.Train d k).1.categoriesCount = bumpCount c.categoriesCount k := by
  show ((((Tokenize d).foldl (fun c t => c.addToken t k) c)).addCategory
      k).categoriesCount = _
  unfold Classifier.addCategory
  rw [foldl_addToken_categoriesCount]

/-- Reading a category counter after a bump: the bumped key gains one, the
others are unchanged. -/
lemma lookupCount_bumpCount (l : List (String × Nat)) (cat k : String) :
    (lookupCount (bumpCount l cat) k).getD 0 =
      (lookupCount l k).getD 0 + (if k = cat then 1 else 0) := by
  induction l with
  | nil =>
    by_cases h : cat = k
    · subst h; simp [bumpCount, lookupCount]
    · simp [bumpCount, lookupCount, h, Ne.symm h]
  | cons a rest ih =>
    obtain ⟨ak, av⟩ := a
    by_cases hac : ak = cat
    · subst hac
      by_cases hk : ak = k
      · subst hk; simp [bumpCount, lookupCount]
      · simp [bumpCount, lookupCount, hk, Ne.symm hk]
    · by_cases hk : ak = k
      · subst hk; simp [bumpCount, lookupCount, hac]
      · simp [bumpCount, lookupCount, hac, hk, ih]

/-- The integer-division slip: with two or more known categories,
`float64(1 / len(CategoriesCount))` truncates to `0`, so every score is
`0`. -/
lemma getProb_prior_zero (c : Classifier) (data cat : String)
    (h : 2 ≤ c.categoriesCount.length) : c.getProb data cat = 0 := by
  unfold Classifier.getProb
  have h1 : 1 / c.categoriesCount.length = 0 :=
    Nat.div_eq_of_lt (by omega)
  rw [h1]
  simp

end AstrA

namespace AstrA

/-- Once the loop of `Classify` has assigned a guess, the guess stays a
category name: it never falls back to the sentinel `""` unless `""` itself
is a category. -/
lemma classifyFold_stays_assigned (c : Classifier) (data : String) :
    ∀ (l : List String) (acc : String × ℚ), acc.1 ≠ "" → "" ∉ l →
      (l.foldl (c.classifyStep data) acc).1 ≠ "" := by
  intro l
  induction l with
  | nil => intro acc h _; exact h
  | cons cat l ih =>
    intro acc h hni
    rw [List.foldl_cons]
    refine ih _ ?_ (fun hm => hni (List.mem_cons_of_mem _ hm))
    unfold Classifier.classifyStep
    by_cases hlt : acc.2 < c.getProb data cat
    · simp only [hlt, if_pos]
      exact fun hc => hni (hc ▸ List.mem_cons_self _ _)
    · simpa [hlt] using h

/-- If the loop of `Classify` ends on the sentinel `""` (and `""` is not a
category), no category's probability ever beat the running maximum `m`. -/
lemma classifyFold_sentinel (c : Classifier) (data : String) :
    ∀ (l : List String) (m : ℚ), "" ∉ l →
      (l.foldl (c.classifyStep data) ("", m)).1 = "" →
      ∀ cat ∈ l, c.getProb data cat ≤ m := by
  intro l
  induction l with
  | nil => intro m _ _ cat hc; cases hc
  | cons a l ih =>
    intro m hni hfold cat hc
    have ha : a ≠ "" := fun h => hni (h ▸ List.mem_cons_self _ _)
    have hnl : "" ∉ l := fun hm => hni (List.mem_cons_of_mem _ hm)
    rw [List.foldl_cons] at hfold
    by_cases hlt : m < c.getProb data a
    · exfalso
      have hstep : (c.classifyStep data ("", m) a).1 = a := by
        unfold Classifier.classifyStep; simp [hlt]
      have hne : (c.classifyStep data ("", m) a).1 ≠ "" := by
        rw [hstep]; exact ha
      exact classifyFold_stays_assigned c data l _ hne hnl hfold
    · have hstep : c.classifyStep data ("", m) a = ("", m) := by
        unfold Classifier.classifyStep; simp [hlt]
      rw [hstep] at hfold
      rcases List.mem_cons.mp hc with h | h
      · exact h ▸ le_of_not_lt hlt
      · exact ih m hnl hfold cat h

/-- If no category's probability beats the running maximum, the loop of
`Classify` never moves off its accumulator. -/
lemma classifyFold_stays_put (c : Classifier) (data : String) :
    ∀ (l : List String) (g : String) (m : ℚ),
      (∀ cat ∈ l, c.getProb data cat ≤ m) →
      l.foldl (c.classifyStep data) (g, m) = (g, m) := by
  intro l
  induction l with
  | nil => intro g m _; rfl
  | cons a l ih =>
    intro g m hle
    rw [List.foldl_cons]
    have hstep : c.classifyStep data (g, m) a = (g, m) := by
      unfold Classifier.classifyStep
      simp [not_lt.mpr (hle a (List.mem_cons_self _ _))]
    rw [hstep]
    exact ih g m fun cat hc => hle cat (List.mem_cons_of_mem _ hc)

/-- Evaluating the token-count fold of `WordCounts` at one token. -/
lemma wordCounts_foldl (t : String) :
    ∀ (l : List String) (wc : String → Nat),
      (l.foldl (fun wc token => Function.update wc token (wc token + 1)) wc) t =
        wc t + l.count t := by
  intro l
  induction l with
  | nil => intro wc; simp
  | cons a l ih =>
    intro wc
    rw [List.foldl_cons, ih, List.count_cons]
    by_cases h : t = a
    · subst h; simp [Function.update_apply]; omega
    · simp [Function.update_apply, h, Ne.symm h]

end AstrA

namespace AstrA

set_option maxRecDepth 100000

/-- Nondecreasing byte/codepoint order on adjacent entries: the sortedness
precondition of `sort.SearchStrings` in the spec's words. -/
def isSortedLe : List String → Bool
  | [] => true
  | [_] => true
  | a :: b :: rest => goStrLe a b && isSortedLe (b :: rest)

/-- The result of a whole training session, starting from `New()`. -/
def trainSeq (calls : List (String × String)) : Classifier :=
  calls.foldl (fun c p => (c.Train p.1 p.2).1) New

/-- A training session adds, per category, one counter bump per call. -/
lemma trainSeq_lookup :
    ∀ (calls : List (String × String)) (c : Classifier) (cat : String),
      (lookupCount ((calls.foldl (fun c p =>
          (c.Train p.1 p.2).1) c).categoriesCount) cat).getD 0 =
        (lookupCount c.categoriesCount cat).getD 0 +
          calls.countP (fun p => p.2 == cat) := by
  intro calls
  induction calls with
  | nil => intro c cat; simp
  | cons p calls ih =>
    intro c cat
    rw [List.foldl_cons, ih, Train_categoriesCount, lookupCount_bumpCount,
      List.countP_cons]
    by_cases h : cat = p.2
    · simp [h]; omega
    · simp [h, beq_iff_eq, Ne.symm h]

/-- The code's `calcTokenWeight` agrees with the spec's `TotalWeight`:
the summed count, floored to `0.001` exactly when the sum is `0`. -/
lemma calcTokenWeight_eq_specTotalWeight (c : Classifier) (token : String) :
    c.calcTokenWeight token = specTotalWeight c token := by
  unfold Classifier.calcTokenWeight specTotalWeight specTotalSeen
    Classifier.countTokenInCategory
  have hnn : 0 ≤ (c.getModelCategories.map fun cat =>
      ((c.mapTokenToCategory token cat : ℚ))).sum := by
    refine List.sum_nonneg ?_
    intro x hx
    simp only [List.mem_map] at hx
    obtain ⟨a, _, rfl⟩ := hx
    positivity
  rcases eq_or_lt_of_le hnn with hz | hp
  · simp [← hz]
  · simp [hp, ne_of_gt hp]

/-- C1: the claim says `score = textProb · (1/numberOfKnownCategories)` with
real-number division.  The code computes the prior with Go integer division
(`float64(1 / len(CategoriesCount))`): after training the two categories
`"x"` and `"y"`, the score of `"xx"` against `"x"` is `0`, while the
claimed product `textProb · (1/2)` is `3/8`. -/
theorem getProb_truncates_uniform_prior :
    ((New.Train "xx" "x").1.Train "yy" "y").1.getProb "xx" "x" = 0 ∧
    ((New.Train "xx" "x").1.Train "yy" "y").1.getTextProb "xx" "x" *
        ((1 : ℚ) / 2) = 3 / 8 := by
  have hc : (((New.Train "xx" "x").1.Train "yy" "y").1.categoriesCount) =
      [("x", 1), ("y", 1)] := by decide
  constructor
  · exact getProb_prior_zero _ _ _ (by rw [hc]; decide)
  · have h34 : ((New.Train "xx" "x").1.Train "yy" "y").1.getTextProb "xx" "x" =
        3 / 4 := by
      have hm1 : (((New.Train "xx" "x").1.Train "yy" "y").1.mapTokenToCategory
          "xx" "x") = 1 := by decide
      have hm2 : (((New.Train "xx" "x").1.Train "yy" "y").1.mapTokenToCategory
          "xx" "y") = 0 := by decide
      have htok : Tokenize "xx" = ["xx"] := by decide
      simp [Classifier.getTextProb, htok, Classifier.getWeightedProb,
        Classifier.getModelCategories, hc, Classifier.countTokenInCategory,
        hm1, hm2, Classifier.calcTokenWeight, Classifier.getTokenProb,
        Classifier.categoryTokensCount, lookupCount]
      norm_num
    rw [h34]; norm_num

/-- C2: the claim says the end-to-end example classifies successfully.  In
the code, after training `"animals"` and `"finance"`, the integer-division
prior makes every score `0`, so `Classify("кот и акция")` fails with
`ErrNotClassified` instead of returning a label. -/
theorem classify_trained_pair_no_match :
    ((New.Train "кот сидит на окне" "animals").1.Train
        "акция выросла на бирже" "finance").1.Classify "кот и акция" =
      .error ErrNotClassified := by
  have hc : (((New.Train "кот сидит на окне" "animals").1.Train
      "акция выросла на бирже" "finance").1.categoriesCount) =
      [("animals", 1), ("finance", 1)] := by decide
  have hfold : (((New.Train "кот сидит на окне" "animals").1.Train
      "акция выросла на бирже" "finance").1.classifyFold "кот и акция") =
      ("", 0) := by
    unfold Classifier.classifyFold
    exact classifyFold_stays_put _ _ _ "" 0 fun cat _ =>
      le_of_eq (getProb_prior_zero _ _ cat (by rw [hc]; decide))
  simp [Classifier.Classify, hfold]

/-- C3: the claim says the embedded stopword list is sorted in nondecreasing
byte/codepoint order.  It is not: already `stopwords[0] = "мне"` exceeds
`stopwords[1] = "здравств"`, and as a consequence the binary search misses
the listed stopword `"и"`. -/
theorem stopwords_not_sorted :
    goStrLe (stopwords.getD 0 "") (stopwords.getD 1 "") = false ∧
    isSortedLe stopwords = false ∧
    "и" ∈ stopwords ∧ IsStopWord "и" = false := by decide

/-- C4: the claim says a search position at or past the end of the list is
reported as "not a stopword".  The code's `index >= numStopwords ||
stopwords[index] == v` returns `true` there: `"ёж"` (greater than every
list entry, so its search lands exactly at `numStopwords`) is reported as a
stopword although it is not in the list. -/
theorem isStopWord_past_end_found :
    sortSearch numStopwords
        (fun i => goStrLe (goToLower "ёж") (stopwords.getD i "")) =
      numStopwords ∧
    IsStopWord "ёж" = true ∧ "ёж" ∉ stopwords := by decide

/-- C5: the claim says tokenization drops the stopword `"и"`
case-insensitively.  Because the stopword list is unsorted, the binary
search misses `"и"`, so `Tokenize "the и cat"` keeps the token `"и"`
although `"и"` is in the stopword table (in `Tokenize "И собака"`, `"и"`
survives while `"собака"` is wrongly swallowed by the past-the-end rule). -/
theorem tokenize_keeps_known_stopword :
    Tokenize "the и cat" = ["the", "и", "cat"] ∧
    Tokenize "И собака" = ["и"] ∧ "и" ∈ stopwords := by decide

end AstrA

namespace AstrA

set_option maxRecDepth 100000

/-- C6 (amended): `Classify("")` fails with `ErrEmptyText` regardless of
model state (the empty-input check runs before anything else, so that
conjunct is unconditional); and for every non-empty document, provided no
trained category is named `""`, `Classify` fails with `ErrNotClassified`
exactly when no category's score is strictly greater than `0`. -/
theorem classify_error_spec (c : Classifier) (data : String) :
    c.Classify "" = .error ErrEmptyText ∧
    ("" ∉ c.getModelCategories → data ≠ "" →
      (c.Classify data = .error ErrNotClassified ↔
        ∀ cat ∈ c.getModelCategories, ¬ (0 < c.getProb data cat))) := by
  constructor
  · rfl
  · intro h hd
    have hiff : (c.Classify data = .error ErrNotClassified) ↔
        (c.classifyFold data).1 = "" := by
      unfold Classifier.Classify
      rw [if_neg hd]
      by_cases hr : (c.classifyFold data).1 = ""
      · simp [hr]
      · simp [hr]
    rw [hiff]
    constructor
    · intro hr cat hc
      refine not_lt.mpr ?_
      refine classifyFold_sentinel c data _ 0 h ?_ cat hc
      unfold Classifier.classifyFold at hr
      exact hr
    · intro hall
      unfold Classifier.classifyFold
      rw [classifyFold_stays_put c data _ "" 0
        (fun cat hc => not_lt.mp (hall cat hc))]

/-- Witness for C6: a concrete model with the single category `"x"`, the
inner hypotheses discharged at the document `"yy"`. -/
theorem classify_error_spec_witness :
    ((New.Train "xx" "x").1.Classify "" = .error ErrEmptyText) ∧
    ((New.Train "xx" "x").1.Classify "yy" = .error ErrNotClassified ↔
      ∀ cat ∈ (New.Train "xx" "x").1.getModelCategories,
        ¬ (0 < (New.Train "xx" "x").1.getProb "yy" cat)) :=
  ⟨(classify_error_spec (New.Train "xx" "x").1 "yy").1,
    (classify_error_spec (New.Train "xx" "x").1 "yy").2 (by decide) (by decide)⟩

/-- Counterexample to C6 as stated: with the (accepted) empty category name
`""` trained, `Classify` uses `""` as its not-classified sentinel, so it
reports `ErrNotClassified` although the score of category `""` is `1 > 0`. -/
theorem classify_no_match_empty_category_counterexample :
    (New.Train "xx" "").1.Classify "xx" = .error ErrNotClassified ∧
    0 < (New.Train "xx" "").1.getProb "xx" "" := by
  have hm : ((New.Train "xx" "").1.mapTokenToCategory "xx" "") = 1 := by decide
  have hc : ((New.Train "xx" "").1.categoriesCount) = [("", 1)] := by decide
  have htok : Tokenize "xx" = ["xx"] := by decide
  have hp : (New.Train "xx" "").1.getProb "xx" "" = 1 := by
    simp [Classifier.getProb, Classifier.getTextProb, htok,
      Classifier.getWeightedProb, Classifier.getModelCategories, hc,
      Classifier.countTokenInCategory, hm, Classifier.calcTokenWeight,
      Classifier.getTokenProb, Classifier.categoryTokensCount, lookupCount]
  constructor
  · simp [Classifier.Classify, Classifier.classifyFold, Classifier.classifyStep,
      Classifier.getModelCategories, hc, hp]
  · rw [hp]; norm_num

/-- C7: starting from a fresh classifier, after any finite sequence of
`Train` calls the stored training count of every category equals the number
of `Train` calls issued with that category; and a `Train` call with an
empty document still increments its category's count by exactly `1` while
leaving the token records untouched. -/
theorem trainingCount_counts_calls :
    (∀ (calls : List (String × String)) (cat : String),
        (lookupCount (trainSeq calls).categoriesCount cat).getD 0 =
          calls.countP (fun p => p.2 == cat)) ∧
    ∀ (c : Classifier) (cat : String),
        (lookupCount ((c.Train "" cat).1.categoriesCount) cat).getD 0 =
          (lookupCount c.categoriesCount cat).getD 0 + 1 ∧
        ((c.Train "" cat).1.mapTokenToCategory) = c.mapTokenToCategory := by
  constructor
  · intro calls cat
    rw [trainSeq, trainSeq_lookup]
    simp [New, lookupCount]
  · intro c cat
    constructor
    · rw [Train_categoriesCount, lookupCount_bumpCount]; simp
    · rfl

/-- C8: with at least one trained category, `getWeightedProb` equals the
spec's formula
`(TotalWeight(t) · 1 · (1/numberOfKnownCategories) + totalSeen · tokenProb(t,c))
/ (1 + totalSeen)`, where `totalSeen` sums the token's per-category counts
over all known categories and `TotalWeight` is `totalSeen` floored to
`0.001` when the sum is `0`. -/
theorem getWeightedProb_spec_formula (c : Classifier) (token cat : String)
    (h : 0 < c.categoriesCount.length) :
    c.getWeightedProb token cat = specWeightedProb c token cat := by
  unfold Classifier.getWeightedProb specWeightedProb
  rw [calcTokenWeight_eq_specTotalWeight]
  unfold specTotalSeen
  ring

/-- Witness for C8: the formula at a concrete trained model. -/
theorem getWeightedProb_spec_formula_witness :
    0 < ((New.Train "xx" "x").1.categoriesCount).length ∧
    (New.Train "xx" "x").1.getWeightedProb "xx" "x" =
      specWeightedProb (New.Train "xx" "x").1 "xx" "x" :=
  ⟨by decide, getWeightedProb_spec_formula _ _ _ (by decide)⟩

/-- C9: with exactly one trained category `X`, the uniform prior
`float64(1 / 1)` is `1`, so every text's score against `X` equals its text
probability. -/
theorem single_category_prior_one (c : Classifier) (X : String)
    (h : c.getModelCategories = [X]) :
    ∀ text, c.getProb text X = c.getTextProb text X := by
  intro text
  have hlen : c.categoriesCount.length = 1 := by
    have := congrArg List.length h
    simpa [Classifier.getModelCategories] using this
  simp [Classifier.getProb, hlen]

/-- Witness for C9: a model with the single category `"cat"`. -/
theorem single_category_prior_one_witness :
    (New.Train "xx" "cat").1.getModelCategories = ["cat"] ∧
    (New.Train "xx" "cat").1.getProb "xx" "cat" =
      (New.Train "xx" "cat").1.getTextProb "xx" "cat" :=
  ⟨by decide, single_category_prior_one _ _ (by decide) "xx"⟩

/-- C10: for every input string, `WordCounts` maps each token of the
default tokenizer pipeline to its number of occurrences in the pipeline's
output, and the returned error is always `nil`. -/
theorem wordCounts_counts_tokens :
    ∀ (data t : String),
      (WordCounts data).1 t = (Tokenize data).count t ∧
      (WordCounts data).2 = none := by
  intro data t
  refine ⟨?_, rfl⟩
  unfold WordCounts
  simpa using wordCounts_foldl t (Tokenize data) (fun _ => 0)

end AstrA
